import Mathlib

/-
Verification of the JSONL-to-spreadsheet conversion utility
(src/jsonl_to_xlsx.py).

The development shallowly embeds the record-transformation and
output-assembly pipeline of the source:
  * `PyVal` models the JSON values that `json.loads` can return;
    a log line is modelled at the parser interface as `Option PyVal`
    (`none` is a line on which `json.loads` raises).
  * `processLine` embeds the body of the per-line `try` block
    (source lines 176-197), including the exceptions that the block
    can catch (`AttributeError` on a non-dict top level, `TypeError`
    from `time.localtime` on a non-numeric timestamp / an unhashable
    dict key).
  * `strftimeLocal` embeds
    `time.strftime('%Y-%m-%d %H:%M:%S', time.localtime(ts))`
    with the local timezone modelled as a fixed offset `tz` in seconds
    east of UTC, using the standard civil-from-days calendar algorithm.
  * `write_data_to_file`, `FS`, `WEnv` embed the output writer
    (source lines 40-74) over an explicit filesystem model; the
    pandas engines `to_excel` / `to_csv` are external collaborators
    modelled by the environment predicates `excelOk` / `csvOk`.
  * `stepFile`, `runFiles`, `jsonlRun` embed the main per-file loop and
    the merged-mode flush (source lines 166-218), including the leak of
    the Python loop variables `i` and `log_file` out of their loops
    (an unbound read aborts the run with a `NameError`).
  * `findLogFiles` embeds file discovery (source lines 154-163) over a
    directory-tree model, and `resolveBoardType` embeds board-identifier
    resolution (source lines 140-151) at the level of the loaded config
    dictionary and the resolved boot-log lines.

String primitives that the source uses (`endswith`, slicing, `split`,
`strip`, substring test, `os.path.basename`, `os.path.join`) are given
as explicit structurally recursive definitions over character lists so
that every definition evaluates by kernel reduction.
-/

/-- A Python value as produced by `json.loads`: `None`, booleans,
integers, strings, lists and string-keyed dictionaries.  (JSON floats
are outside the value universe of this model.) -/
inductive PyVal where
  | pyNone : PyVal
  | pyBool : Bool → PyVal
  | pyInt : Int → PyVal
  | pyStr : String → PyVal
  | pyList : List PyVal → PyVal
  | pyDict : List (String × PyVal) → PyVal

/-- `d.get(k, dflt)` for a string-keyed Python dict, modelled as an
association list with distinct keys (as produced by `json.loads`). -/
def dictGet (kvs : List (String × PyVal)) (k : String) (dflt : PyVal) : PyVal :=
  match kvs with
  | [] => dflt
  | (a, v) :: rest => if a = k then v else dictGet rest k dflt

/-- True on the Python values that are hashable atoms (usable as dict
keys without a `TypeError`): `None`, `bool`, `int`, `str`. -/
def hashableAtom : PyVal → Bool
  | .pyNone => true
  | .pyBool _ => true
  | .pyInt _ => true
  | .pyStr _ => true
  | .pyList _ => false
  | .pyDict _ => false

/-- Python `==` restricted to hashable atoms, with the numeric tower
identification `True == 1`, `False == 0`. -/
def atomKeyEq (a b : PyVal) : Bool :=
  match a, b with
  | .pyNone, .pyNone => true
  | .pyStr s, .pyStr t => s = t
  | .pyBool x, .pyBool y => x = y
  | .pyBool x, .pyInt m => (if x then (1 : Int) else 0) = m
  | .pyInt n, .pyBool y => n = (if y then (1 : Int) else 0)
  | .pyInt n, .pyInt m => n = m
  | _, _ => false

/-- Python `v == s` for a string literal `s`: only a `str` value can
compare equal to a string; every other value compares unequal. -/
def pyEqStr (v : PyVal) (s : String) : Bool :=
  match v with
  | .pyStr t => t = s
  | _ => false

/-- `m.get(k, dflt)` for the I2C-address mapping
(`i2c_mapping.get(i2c_address, "Unknown")`, source line 180), with
Python key equality on hashable atoms. -/
def lookupGet (m : List (PyVal × PyVal)) (k : PyVal) (dflt : PyVal) : PyVal :=
  match m with
  | [] => dflt
  | (a, v) :: rest => if atomKeyEq a k then v else lookupGet rest k dflt

/-- `str(v)` for the atoms of the value universe; containers delegate to
`pyReprList` / `pyReprDict` below. -/
def boolStr (b : Bool) : String := if b then "True" else "False"

/-- The single-quote character, used by Python container reprs. -/
def quoteCh : Char := Char.ofNat 39

mutual
/-- An approximation of Python `repr` for values inside containers
(strings are single-quoted, no escaping is modelled). -/
def pyRepr : PyVal → String
  | .pyNone => "None"
  | .pyBool b => boolStr b
  | .pyInt n => toString n
  | .pyStr s => String.singleton quoteCh ++ s ++ String.singleton quoteCh
  | .pyList xs => "[" ++ pyReprList xs ++ "]"
  | .pyDict kvs => "\x7b" ++ pyReprDict kvs ++ "\x7d"

/-- Comma-separated reprs of the elements of a Python list. -/
def pyReprList : List PyVal → String
  | [] => ""
  | [x] => pyRepr x
  | x :: y :: rest => pyRepr x ++ ", " ++ pyReprList (y :: rest)

/-- Comma-separated reprs of the entries of a Python dict. -/
def pyReprDict : List (String × PyVal) → String
  | [] => ""
  | [(k, v)] => String.singleton quoteCh ++ k ++ String.singleton quoteCh ++ ": " ++ pyRepr v
  | (k, v) :: e :: rest =>
      String.singleton quoteCh ++ k ++ String.singleton quoteCh ++ ": " ++ pyRepr v
        ++ ", " ++ pyReprDict (e :: rest)
end

/-- `str(v)`, as evaluated by the f-string on source line 191. -/
def pyToStr : PyVal → String
  | .pyNone => "None"
  | .pyBool b => boolStr b
  | .pyInt n => toString n
  | .pyStr s => s
  | .pyList xs => "[" ++ pyReprList xs ++ "]"
  | .pyDict kvs => "\x7b" ++ pyReprDict kvs ++ "\x7d"

/-- The argument `time.localtime` receives on source line 183:
a numeric value is taken as epoch seconds (with `True == 1`),
`None` means "current time" (Python `localtime(None)`), and any other
value makes `localtime` raise a `TypeError`. -/
def tsSeconds (now : Int) (v : PyVal) : Option Int :=
  match v with
  | .pyInt n => some n
  | .pyBool b => some (if b then 1 else 0)
  | .pyNone => some now
  | _ => none

/-- Two-digit zero padding for calendar fields. -/
def pad2 (n : Nat) : String := if n < 10 then "0" ++ toString n else toString n

/-- Four-digit zero padding for the year. -/
def pad4 (n : Nat) : String :=
  if n < 10 then "000" ++ toString n
  else if n < 100 then "00" ++ toString n
  else if n < 1000 then "0" ++ toString n
  else toString n

/-- Year rendering, signed. -/
def padYear (y : Int) : String :=
  if 0 ≤ y then pad4 y.toNat else "-" ++ pad4 (-y).toNat

/-- Proleptic-Gregorian date from a count of days since 1970-01-01
(the standard civil-from-days algorithm): returns (year, month, day). -/
def civilFromDays (z0 : Int) : Int × Nat × Nat :=
  let z : Int := z0 + 719468
  let era : Int := z.fdiv 146097
  let doe : Nat := (z.fmod 146097).toNat
  let yoe : Nat := (doe - doe / 1460 + doe / 36524 - doe / 146096) / 365
  let y : Int := (yoe : Int) + era * 400
  let doy : Nat := doe - (365 * yoe + yoe / 4 - yoe / 100)
  let mp : Nat := (5 * doy + 2) / 153
  let d : Nat := doy - (153 * mp + 2) / 5 + 1
  let m : Nat := if mp < 10 then mp + 3 else mp - 9
  (if m ≤ 2 then y + 1 else y, m, d)

/-- `time.strftime('%Y-%m-%d %H:%M:%S', time.localtime(ts))`
(source line 183), with the local timezone modelled as the fixed
offset `tz` in seconds east of UTC. -/
def strftimeLocal (tz ts : Int) : String :=
  let t : Int := ts + tz
  let days : Int := t.fdiv 86400
  let secs : Nat := (t.fmod 86400).toNat
  match civilFromDays days with
  | (y, mo, d) =>
      padYear y ++ "-" ++ pad2 mo ++ "-" ++ pad2 d ++ " "
        ++ pad2 (secs / 3600) ++ ":" ++ pad2 (secs % 3600 / 60) ++ ":" ++ pad2 (secs % 60)

/-- The enriched flat row built on source lines 182-196.  Conditional
fields are `Option`-valued: `none` models absence of the key from the
Python dict. -/
structure OutputRecord where
  dateTime : String
  timestamp : PyVal
  value : PyVal
  siUnit : PyVal
  i2cAddress : PyVal
  component : Option PyVal
  componentAtAddress : Option String
  board : Option PyVal
  filename : Option String

/-- The body of the per-line `try` block (source lines 176-197) for one
line: `none` models a line on which `json.loads` raises, and each
`.error` names the exception class the block catches.  `tz`/`now` model
the environment read by `time.localtime`, `mapping` is the loaded
`i2c_mapping`, `board` the resolved `board_type`, `bname` the value of
`os.path.basename(log_file)`. -/
def processLine (tz now : Int) (mapping : List (PyVal × PyVal)) (board : PyVal)
    (merged : Bool) (bname : String) (line : Option PyVal) : Except String OutputRecord :=
  match line with
  | none => .error "JSONDecodeError"
  | some entry =>
    match entry with
    | .pyDict kvs =>
      let i2cAddress := dictGet kvs "i2c_address" (.pyStr "Unknown")
      if hashableAtom i2cAddress then
        let componentName := lookupGet mapping i2cAddress (.pyStr "Unknown")
        match tsSeconds now (dictGet kvs "timestamp" (.pyInt 0)) with
        | none => .error "TypeError"
        | some ts =>
            .ok { dateTime := strftimeLocal tz ts
                  timestamp := dictGet kvs "timestamp" (.pyStr "Unknown")
                  value := dictGet kvs "value" (.pyStr "Unknown")
                  siUnit := dictGet kvs "si_unit" (.pyStr "Unknown")
                  i2cAddress := i2cAddress
                  component :=
                    if pyEqStr componentName "Unknown" then none else some componentName
                  componentAtAddress :=
                    if pyEqStr componentName "Unknown" then none
                    else some (pyToStr componentName ++ "@" ++ pyToStr i2cAddress)
                  board := if pyEqStr board "Unknown Board" then none else some board
                  filename := if merged then some bname else none }
      else .error "TypeError"
    | _ => .error "AttributeError"

example :
    (processLine 0 0 [] (.pyStr "Unknown Board") false "f" (some (.pyDict []))).map
      (fun r => r.dateTime) = .ok "1970-01-01 00:00:00" := by rfl

example :
    (processLine 0 0 [] (.pyStr "Unknown Board") false "f"
      (some (.pyDict [("timestamp", .pyInt 1700000000)]))).map
      (fun r => r.dateTime) = .ok "2023-11-14 22:13:20" := by rfl

/-- Prefix test on character lists (helper for the substring and
suffix tests used by the source's string operations). -/
def isPrefixB : List Char → List Char → Bool
  | [], _ => true
  | _ :: _, [] => false
  | a :: as, b :: bs => a = b && isPrefixB as bs

/-- Python `pat in s` (substring test), over character lists. -/
def isInfixB (p : List Char) (l : List Char) : Bool :=
  isPrefixB p l ||
    match l with
    | [] => false
    | _ :: rest => isInfixB p rest

/-- Python `s.endswith(suffix)`. -/
def endsWithB (s suffix : String) : Bool :=
  isPrefixB suffix.toList.reverse s.toList.reverse

/-- Python `s[:-n]` for `0 < n ≤ len(s)` (and the empty string when
`n` exceeds the length, as in Python). -/
def dropRightB (s : String) (n : Nat) : String :=
  String.mk (s.toList.take (s.toList.length - n))

/-- Split a character list on a separator character
(Python `s.split(sep)` for a one-character separator). -/
def splitCh (c : Char) : List Char → List (List Char)
  | [] => [[]]
  | x :: xs =>
    match splitCh c xs with
    | [] => [[]]
    | h :: t => if x = c then [] :: h :: t else (x :: h) :: t

/-- Python `s.strip()` over ASCII whitespace. -/
def stripChars (l : List Char) : List Char :=
  ((l.dropWhile Char.isWhitespace).reverse.dropWhile Char.isWhitespace).reverse

/-- `os.path.basename(p)` on POSIX paths: the part after the last
path separator. -/
def basenameB (p : String) : String :=
  String.mk ((splitCh '/' p.toList).getLastD [])

/-- `os.path.join(a, b)` on POSIX paths, for an `a` without a trailing
separator and a relative `b`. -/
def joinPath (a b : String) : String := a ++ "/" ++ b

example : endsWithB "out.xlsx" ".xlsx" = true := by rfl
example : endsWithB "out.xlsx" ".csv" = false := by rfl
example : dropRightB "out.xlsx" 5 = "out" := by rfl
example : basenameB "a/b/c.log" = "c.log" := by rfl

/-- The message appended to `errors` for a line the `try` block catches
(source line 199), with the caught exception's class standing in for
its rendering. -/
def mkLineErr (idx : Nat) (path e : String) : String :=
  "Error processing line " ++ Nat.repr (idx + 1) ++ " of " ++ path ++ ": " ++ e

/-- The message appended to `errors` when `write_data_to_file` reports
failure (source lines 212 and 218). -/
def mkWriteErr (outputPath ext logFile : String) (n : Nat) : String :=
  "Failed to write outputfile " ++ outputPath ++ "(" ++ ext ++ ") from " ++ logFile
    ++ " [data len: " ++ Nat.repr n ++ "]"

/-- The per-line loop of source lines 173-203, started at absolute
0-based line index `idx`: returns the records appended to `data` and
the messages appended to `errors`, in order. -/
def processLinesAux (tz now : Int) (mapping : List (PyVal × PyVal)) (board : PyVal)
    (merged : Bool) (bname path : String) (idx : Nat) :
    List (Option PyVal) → List OutputRecord × List String
  | [] => ([], [])
  | l :: ls =>
    let rest := processLinesAux tz now mapping board merged bname path (idx + 1) ls
    match processLine tz now mapping board merged bname l with
    | .ok r => (r :: rest.1, rest.2)
    | .error e => (rest.1, mkLineErr idx path e :: rest.2)

/-- One discovered log file: its path and, when the file exists, the
decode results of its lines (`none` per line models a `json.loads`
failure; `lines = none` models a discovered path that no longer
exists, source line 171). -/
structure LogFile where
  path : String
  lines : Option (List (Option PyVal))

/-- The records the loop of source lines 173-203 appends to `data` for
one discovered file (a missing file contributes nothing). -/
def fileRecords (tz now : Int) (mapping : List (PyVal × PyVal)) (board : PyVal)
    (merged : Bool) (f : LogFile) : List OutputRecord :=
  match f.lines with
  | none => []
  | some ls => (processLinesAux tz now mapping board merged (basenameB f.path) f.path 0 ls).1

/-- Remove the Filename field from a record (the comparison modulo
Filename between merged-mode and per-file-mode output). -/
def stripFilename (r : OutputRecord) : OutputRecord := { r with filename := none }

/-- Content of a file in the filesystem model: either pre-existing text
or a table written by the converter (`excel = true` for `to_excel`). -/
inductive FileContent where
  | text : String → FileContent
  | table : Bool → List OutputRecord → FileContent

/-- Association-list lookup for the file map of the filesystem model. -/
def findContent (p : String) : List (String × FileContent) → Option FileContent
  | [] => none
  | e :: es => if e.1 = p then some e.2 else findContent p es

/-- Remove every entry at a path from the file map. -/
def removeAll (p : String) : List (String × FileContent) → List (String × FileContent)
  | [] => []
  | e :: es => if e.1 = p then removeAll p es else e :: removeAll p es

/-- String membership in a list of paths. -/
def memStr (p : String) : List String → Bool
  | [] => false
  | d :: ds => p = d || memStr p ds

/-- Remove a path from a list of paths. -/
def removeStr (p : String) : List String → List String
  | [] => []
  | d :: ds => if d = p then removeStr p ds else d :: removeStr p ds

/-- The filesystem model: regular files with content, and directories. -/
structure FS where
  files : List (String × FileContent)
  dirs : List String

/-- `os.path.isfile`-style content lookup. -/
def FS.lookupFile (fs : FS) (p : String) : Option FileContent := findContent p fs.files

/-- `os.path.isdir(p)`. -/
def FS.isdir (fs : FS) (p : String) : Bool := memStr p fs.dirs

/-- `os.path.exists(p)`. -/
def FS.pathExists (fs : FS) (p : String) : Bool := (fs.lookupFile p).isSome || fs.isdir p

/-- Create or replace the regular file at `p`. -/
def FS.writeFile (fs : FS) (p : String) (c : FileContent) : FS :=
  ⟨(p, c) :: removeAll p fs.files, fs.dirs⟩

/-- `os.rename(old, new)` for an existing `old` (replacing `new` if it
is a regular file, as on POSIX). -/
def FS.rename (fs : FS) (old new : String) : FS :=
  match findContent old fs.files with
  | some c => FS.writeFile ⟨removeAll old fs.files, fs.dirs⟩ new c
  | none => if fs.isdir old then ⟨fs.files, new :: removeStr old fs.dirs⟩ else fs

/-- The writer's external collaborators: `now` is `int(time.time())`
(source line 48); `excelOk p` / `csvOk p` tell whether
`df.to_excel(p)` / `df.to_csv(p)` succeed or raise (source lines 55
and 66). -/
structure WEnv where
  now : Nat
  excelOk : String → Bool
  csvOk : String → Bool

/-- The path adjustment of source lines 42-46: append the extension if
missing, resolving a directory target to `basename(log_path) + ext`
inside it. -/
def adjustPath (fs : FS) (logPath ext outputPath : String) : String :=
  if endsWithB outputPath ext then outputPath
  else if fs.isdir outputPath then joinPath outputPath (basenameB logPath ++ ext)
  else outputPath ++ ext

/-- The collision policy of source lines 47-50: an existing path is
renamed to `path + ".bak" + str(int(time.time()))` before writing. -/
def backupStep (env : WEnv) (fs : FS) (p : String) : FS :=
  if fs.pathExists p then fs.rename p (p ++ ".bak" ++ Nat.repr env.now) else fs

/-- `write_data_to_file` at `excel_mode=False` (the body of source
lines 63-70 together with the shared prologue of lines 41-50); this is
exactly the function the fallback of source line 62 recurses into. -/
def write_data_to_file_csv (env : WEnv) (fs : FS) (logPath ext outputPath : String)
    (data : List OutputRecord) : Bool × FS :=
  match data with
  | [] => (false, fs)
  | _ :: _ =>
    let p := adjustPath fs logPath ext outputPath
    let fs1 := backupStep env fs p
    if env.csvOk p then (true, fs1.writeFile p (.table false data)) else (false, fs1)

/-- `write_data_to_file` (source lines 40-74).  The source's single
recursive call (line 62, the Excel-to-CSV fallback) always re-enters
with `excel_mode=False`, so it is unrolled here into
`write_data_to_file_csv`; `write_data_to_file_eq_csv` below checks the
unrolling against this function's own `excel_mode=False` branch. -/
def write_data_to_file (env : WEnv) (fs : FS) (logPath ext outputPath : String)
    (excelMode : Bool) (data : List OutputRecord) : Bool × FS :=
  match data with
  | [] => (false, fs)
  | _ :: _ =>
    let p := adjustPath fs logPath ext outputPath
    let fs1 := backupStep env fs p
    match excelMode with
    | true =>
      if env.excelOk p then (true, fs1.writeFile p (.table true data))
      else write_data_to_file_csv env fs1 logPath ".csv" (dropRightB p 5 ++ ".csv") data
    | false =>
      if env.csvOk p then (true, fs1.writeFile p (.table false data)) else (false, fs1)

/-- The unrolled fallback agrees with `write_data_to_file` at
`excel_mode=False`, so the unrolling is faithful to the source's
recursion. -/
theorem write_data_to_file_eq_csv (env : WEnv) (fs : FS) (logPath ext outputPath : String)
    (data : List OutputRecord) :
    write_data_to_file env fs logPath ext outputPath false data
      = write_data_to_file_csv env fs logPath ext outputPath data := by
  cases data <;> rfl

/-- The run parameters the main loop reads (resolved once, before
source line 154): timezone and clock for `time.localtime`, the loaded
`i2c_mapping`, the resolved `board_type`, the `--merged` and format
flags, and the `log_path` / `output_path` arguments. -/
structure RunCfg where
  tz : Int
  now : Int
  mapping : List (PyVal × PyVal)
  board : PyVal
  merged : Bool
  excelMode : Bool
  logPath : String
  outputPath : String

/-- `output_file_extension` (source line 89). -/
def RunCfg.ext (cfg : RunCfg) : String := if cfg.excelMode then ".xlsx" else ".csv"

/-- The mutable state of the main loop of source lines 166-218:
the filesystem, the `data` buffer, the `errors` list, and the leaked
Python loop variables `i` (`none` = never assigned) and `log_file`. -/
structure RunState where
  fs : FS
  data : List OutputRecord
  errors : List String
  lastI : Option Nat
  lastLogFile : Option String

/-- One iteration of the `for log_file in log_files` loop (source
lines 168-214).  A file whose `lines` are exhausted without ever
binding `i` makes the completion message of source line 204 read an
unassigned variable: the run aborts with a `NameError`. -/
def stepFile (env : WEnv) (cfg : RunCfg) (st : RunState) (lf : LogFile) :
    Except String RunState :=
  let st0 : RunState :=
    { st with lastLogFile := some lf.path,
              data := if cfg.merged then st.data else [] }
  match lf.lines with
  | none => .ok st0
  | some lines =>
    let pr := processLinesAux cfg.tz cfg.now cfg.mapping cfg.board cfg.merged
      (basenameB lf.path) lf.path 0 lines
    let lastI : Option Nat := if lines.isEmpty then st0.lastI else some (lines.length - 1)
    match lastI with
    | none => .error "NameError: name i is not defined"
    | some _ =>
      let st1 : RunState :=
        { st0 with data := st0.data ++ pr.1, errors := st0.errors ++ pr.2, lastI := lastI }
      if cfg.merged then .ok st1
      else
        let newOutputPath :=
          if st1.fs.isdir cfg.outputPath then joinPath cfg.outputPath (lf.path ++ cfg.ext)
          else cfg.outputPath
        let w := write_data_to_file env st1.fs cfg.logPath cfg.ext newOutputPath
          cfg.excelMode st1.data
        .ok { st1 with
              fs := w.2,
              errors := if w.1 then st1.errors
                else st1.errors ++ [mkWriteErr cfg.outputPath cfg.ext lf.path st1.data.length] }

/-- The whole `for log_file in log_files` loop; an uncaught exception
in one iteration propagates out of the loop. -/
def runFiles (env : WEnv) (cfg : RunCfg) : RunState → List LogFile → Except String RunState
  | st, [] => .ok st
  | st, lf :: rest =>
    match stepFile env cfg st lf with
    | .error e => .error e
    | .ok st1 => runFiles env cfg st1 rest

/-- The main loop plus the merged-mode flush (source lines 166-218),
starting from filesystem `fs0`.  In merged mode a failing final write
appends an error message that reads the leaked `log_file` variable: if
no file was ever processed this is a `NameError` (source line 218). -/
def jsonlRun (env : WEnv) (cfg : RunCfg) (fs0 : FS) (files : List LogFile) :
    Except String RunState :=
  match runFiles env cfg ⟨fs0, [], [], none, none⟩ files with
  | .error e => .error e
  | .ok st =>
  if cfg.merged then
    let w := write_data_to_file env st.fs cfg.logPath cfg.ext cfg.outputPath
      cfg.excelMode st.data
    if w.1 then .ok { st with fs := w.2 }
    else
      match st.lastLogFile with
      | none => .error "NameError: name log_file is not defined"
      | some lf =>
          .ok { st with
                fs := w.2,
                errors := st.errors ++ [mkWriteErr cfg.outputPath cfg.ext lf st.data.length] }
  else .ok st

/-- True when a directory entry's name passes the log-extension filter
`file.endswith(('.log', '.jsonl'))` (source lines 159 and 161). -/
def isLogName (n : String) : Bool := endsWithB n ".log" || endsWithB n ".jsonl"

/-- A directory tree: `rootPath` is modelled by a node of this type,
and a directory's listing order is its `children` order. -/
inductive FsTree where
  | file : String → FsTree
  | dir : String → List FsTree → FsTree

/-- The entry name of a tree node (what `os.listdir` reports). -/
def FsTree.name : FsTree → String
  | .file n => n
  | .dir n _ => n

mutual
/-- The recursive part of `os.walk(base)` in top-down order: the
filtered, joined file paths contributed by the subdirectories among
`ts`, in listing order (source lines 158-159). -/
def walkSubdirs (base : String) : List FsTree → List String
  | [] => []
  | FsTree.file _ :: ts => walkSubdirs base ts
  | FsTree.dir n cs :: ts => walkLevel (joinPath base n) cs ++ walkSubdirs base ts
termination_by ts => (sizeOf ts, 0)

/-- `os.walk(base)` in top-down order over a directory with entries
`ts`, keeping the filtered, joined file paths: the current level's
matching files first, then each subdirectory's walk in listing order
(source lines 158-159). -/
def walkLevel (base : String) (ts : List FsTree) : List String :=
  (ts.filterMap fun c => match c with
    | FsTree.file n => if isLogName n then some (joinPath base n) else none
    | FsTree.dir _ _ => none)
  ++ walkSubdirs base ts
termination_by (sizeOf ts, 1)
end

mutual
/-- Like `walkSubdirs` but collecting every file (no extension filter)
as a (joined path, entry name) pair. -/
def collectSubdirs (base : String) : List FsTree → List (String × String)
  | [] => []
  | FsTree.file _ :: ts => collectSubdirs base ts
  | FsTree.dir n cs :: ts => collectLevel (joinPath base n) cs ++ collectSubdirs base ts
termination_by ts => (sizeOf ts, 0)

/-- Every file of the subtree walk, unfiltered, as a
(joined path, entry name) pair, in the walk order of `walkLevel`. -/
def collectLevel (base : String) (ts : List FsTree) : List (String × String) :=
  (ts.filterMap fun c => match c with
    | FsTree.file n => some (joinPath base n, n)
    | FsTree.dir _ _ => none)
  ++ collectSubdirs base ts
termination_by (sizeOf ts, 1)
end

/-- File discovery (source lines 154-163): a single file is returned
as-is; a directory is either walked recursively or listed directly,
keeping entries whose name passes the log-extension filter. -/
def findLogFiles (logPath : String) (root : FsTree) (recurse : Bool) : List String :=
  match root with
  | .dir _ children =>
      if recurse then walkLevel logPath children
      else ((children.map FsTree.name).filter isLogName).map (joinPath logPath)
  | .file _ => [logPath]

/-- Python `"Board ID:" in line` (source line 148). -/
def hasBoardMarker (l : String) : Bool := isInfixB "Board ID:".toList l.toList

/-- `line.split(":")[-1].strip()` (source line 149): the text after the
last colon, trimmed. -/
def extractBoardId (l : String) : String :=
  String.mk (stripChars ((splitCh ':' l.toList).getLastD []))

/-- The boot-log scan of source lines 146-150: the first line
containing the marker wins (`break`); with no matching line the
previously computed fallback stands. -/
def scanBoardLines (fallback : PyVal) : List String → PyVal
  | [] => fallback
  | l :: ls => if hasBoardMarker l then .pyStr (extractBoardId l) else scanBoardLines fallback ls

/-- `config_data.get("exportedFromDevice", {}).get("rtc", "Unknown Board")`
(source line 141).  A non-dict stored under `exportedFromDevice` makes
the second `.get` raise an uncaught `AttributeError`. -/
def configBoardFallback (config : List (String × PyVal)) : Except String PyVal :=
  match dictGet config "exportedFromDevice" (.pyDict []) with
  | .pyDict d => .ok (dictGet d "rtc" (.pyStr "Unknown Board"))
  | _ => .error "AttributeError"

/-- Board-identifier resolution (source lines 140-151), at the level of
the loaded `config.json` dictionary and the lines of the resolved
`wipper_boot_out.txt` (`boot = none` models a missing boot log). -/
def resolveBoardType (config : List (String × PyVal)) (boot : Option (List String)) :
    Except String PyVal :=
  match configBoardFallback config with
  | .error e => .error e
  | .ok fb =>
    match boot with
    | none => .ok fb
    | some ls => .ok (scanBoardLines fb ls)

example : resolveBoardType [] (some ["x", "Board ID: feather:esp32s2"]) =
    .ok (.pyStr "esp32s2") := by rfl
example : resolveBoardType [("exportedFromDevice", .pyDict [("rtc", .pyStr "DS3231")])] none =
    .ok (.pyStr "DS3231") := by rfl
example : resolveBoardType [] none = .ok (.pyStr "Unknown Board") := by rfl

theorem isPrefixB_append_self (l m : List Char) : isPrefixB l (l ++ m) = true := by
  induction l with
  | nil => rfl
  | cons a as ih => simp [isPrefixB, ih]

/-- Appending a suffix makes `endswith` that suffix hold. -/
theorem endsWithB_append_self (a b : String) : endsWithB (a ++ b) b = true := by
  unfold endsWithB
  rw [show (a ++ b).toList = a.toList ++ b.toList from String.data_append a b]
  rw [List.reverse_append]
  exact isPrefixB_append_self _ _

/-- No string equals itself extended by a `.bak` suffix. -/
theorem ne_bak_suffix (s t : String) : s ≠ s ++ ".bak" ++ t := by
  intro h
  have hl := congrArg String.length h
  rw [String.length_append, String.length_append] at hl
  have h4 : (".bak" : String).length = 4 := rfl
  rw [h4] at hl
  omega

/-- Right cancellation for string append. -/
theorem string_append_right_cancel {a b c : String} (h : a ++ c = b ++ c) : a = b := by
  apply String.ext
  have hd := congrArg String.data h
  rw [String.data_append, String.data_append] at hd
  exact List.append_cancel_right hd

theorem findContent_removeAll (p q : String) (l : List (String × FileContent)) (h : q ≠ p) :
    findContent q (removeAll p l) = findContent q l := by
  induction l with
  | nil => rfl
  | cons e es ih =>
    by_cases h1 : e.1 = p
    · have h2 : ¬ e.1 = q := by rw [h1]; exact fun hq => h hq.symm
      simp [removeAll, findContent, h1, h2, ih, Ne.symm h]
    · simp only [removeAll, findContent, if_neg h1]
      by_cases h2 : e.1 = q
      · simp [findContent, h2]
      · simp [findContent, h2, ih]

theorem lookupFile_writeFile_self (fs : FS) (p : String) (c : FileContent) :
    (fs.writeFile p c).lookupFile p = some c := by
  simp [FS.writeFile, FS.lookupFile, findContent]

theorem lookupFile_writeFile_ne (fs : FS) (p : String) (c : FileContent) (q : String)
    (h : q ≠ p) : (fs.writeFile p c).lookupFile q = fs.lookupFile q := by
  simp only [FS.writeFile, FS.lookupFile, findContent, if_neg (Ne.symm h)]
  exact findContent_removeAll p q fs.files h

/-- Renaming an existing regular file moves its content to the target. -/
theorem lookupFile_rename_self (fs : FS) (old new : String) (c : FileContent)
    (h : fs.lookupFile old = some c) : (fs.rename old new).lookupFile new = some c := by
  unfold FS.rename
  rw [show findContent old fs.files = some c from h]
  exact lookupFile_writeFile_self _ _ _

/-- A rename leaves every other path's content untouched. -/
theorem lookupFile_rename_ne (fs : FS) (old new q : String)
    (h1 : q ≠ old) (h2 : q ≠ new) :
    (fs.rename old new).lookupFile q = fs.lookupFile q := by
  unfold FS.rename
  cases hf : findContent old fs.files with
  | some c =>
    rw [lookupFile_writeFile_ne _ _ _ _ h2]
    exact findContent_removeAll old q fs.files h1
  | none =>
    by_cases hd : fs.isdir old = true
    · simp [hd, FS.lookupFile]
    · simp [hd]

/-- A `backupStep` at `p` leaves every path other than `p` and its
backup name untouched. -/
theorem lookupFile_backupStep_ne (env : WEnv) (fs : FS) (p q : String)
    (h1 : q ≠ p) (h2 : q ≠ p ++ ".bak" ++ Nat.repr env.now) :
    (backupStep env fs p).lookupFile q = fs.lookupFile q := by
  unfold backupStep
  by_cases he : fs.pathExists p = true
  · rw [if_pos he]; exact lookupFile_rename_ne fs p _ q h1 h2
  · rw [if_neg he]

/-- When the path already holds a regular file, `backupStep` moves its
content to the `.bak` name. -/
theorem lookupFile_backupStep_bak (env : WEnv) (fs : FS) (p : String) (c : FileContent)
    (hc : fs.lookupFile p = some c) :
    (backupStep env fs p).lookupFile (p ++ ".bak" ++ Nat.repr env.now) = some c := by
  unfold backupStep
  have he : fs.pathExists p = true := by
    unfold FS.pathExists
    rw [hc]
    rfl
  rw [if_pos he]
  exact lookupFile_rename_self fs p _ c hc

/-- C4: writing a non-empty buffer to an output path that already holds
a file first preserves that file's content under the path extended by
".bak" plus the epoch seconds, and the write's success never depends on
the target existing (the returned flag is a function of the engine
outcomes alone).  The two disequality hypotheses rule out accidental
path collisions between the CSV-fallback path and the backup name. -/
theorem C4_collision_backup (env : WEnv) (fs : FS) (lp ext op : String) (em : Bool)
    (d : OutputRecord) (ds : List OutputRecord) (c : FileContent)
    (hext : endsWithB op ext = true)
    (hc : fs.lookupFile op = some c)
    (h1 : dropRightB op 5 ++ ".csv" ≠ op ++ ".bak" ++ Nat.repr env.now)
    (h2 : dropRightB op 5 ++ ".csv" ≠ op) :
    ((write_data_to_file env fs lp ext op em (d :: ds)).2).lookupFile
        (op ++ ".bak" ++ Nat.repr env.now) = some c
    ∧ (write_data_to_file env fs lp ext op em (d :: ds)).1
        = (if em then (env.excelOk op || env.csvOk (dropRightB op 5 ++ ".csv"))
           else env.csvOk op) := by
  have hadj : adjustPath fs lp ext op = op := by
    unfold adjustPath
    rw [if_pos hext]
  have hopbak : op ≠ op ++ ".bak" ++ Nat.repr env.now := ne_bak_suffix op _
  have hbak1 : (backupStep env fs op).lookupFile (op ++ ".bak" ++ Nat.repr env.now) = some c :=
    lookupFile_backupStep_bak env fs op c hc
  have hfbadj : adjustPath (backupStep env fs op) lp ".csv" (dropRightB op 5 ++ ".csv")
      = dropRightB op 5 ++ ".csv" := by
    unfold adjustPath
    rw [if_pos (endsWithB_append_self _ _)]
  have hbakfb : op ++ ".bak" ++ Nat.repr env.now
      ≠ (dropRightB op 5 ++ ".csv") ++ ".bak" ++ Nat.repr env.now := by
    intro h
    exact h2 (string_append_right_cancel (string_append_right_cancel h)).symm
  simp only [write_data_to_file, hadj]
  cases em with
  | false =>
    cases hcsv : env.csvOk op with
    | true =>
      simp only [hcsv, if_true]
      refine ⟨?_, by simp⟩
      rw [lookupFile_writeFile_ne _ _ _ _ (Ne.symm hopbak)]
      exact hbak1
    | false =>
      simp only [hcsv, Bool.false_eq_true, if_false]
      exact ⟨hbak1, by simp⟩
  | true =>
    cases hex : env.excelOk op with
    | true =>
      simp only [hex, if_true]
      refine ⟨?_, by simp [hex]⟩
      rw [lookupFile_writeFile_ne _ _ _ _ (Ne.symm hopbak)]
      exact hbak1
    | false =>
      simp only [hex, Bool.false_eq_true, if_false]
      simp only [write_data_to_file_csv, hfbadj]
      have hbak2 : (backupStep env (backupStep env fs op) (dropRightB op 5 ++ ".csv")).lookupFile
          (op ++ ".bak" ++ Nat.repr env.now) = some c := by
        rw [lookupFile_backupStep_ne _ _ _ _ (Ne.symm h1) hbakfb]
        exact hbak1
      cases hcsv : env.csvOk (dropRightB op 5 ++ ".csv") with
      | true =>
        simp only [hcsv, if_true]
        refine ⟨?_, by simp⟩
        rw [lookupFile_writeFile_ne _ _ _ _ (Ne.symm h1)]
        exact hbak2
      | false =>
        simp only [hcsv, Bool.false_eq_true, if_false]
        exact ⟨hbak2, by simp⟩

/-- C4 witness: a concrete overwrite of an existing `/out.xlsx`. -/
theorem C4_collision_backup_witness :
    ((write_data_to_file ⟨1700000001, fun _ => true, fun _ => true⟩
        ⟨[("/out.xlsx", .text "old")], []⟩ "/logs" ".xlsx" "/out.xlsx" true
        [⟨"d", .pyNone, .pyNone, .pyNone, .pyNone, none, none, none, none⟩]).2).lookupFile
      ("/out.xlsx" ++ ".bak" ++ Nat.repr 1700000001) = some (.text "old") :=
  (C4_collision_backup ⟨1700000001, fun _ => true, fun _ => true⟩
    ⟨[("/out.xlsx", .text "old")], []⟩ "/logs" ".xlsx" "/out.xlsx" true
    ⟨"d", .pyNone, .pyNone, .pyNone, .pyNone, none, none, none, none⟩ [] (.text "old")
    (by decide) (by rfl) (by decide) (by decide)).1

/-- C5: when the spreadsheet engine fails on a non-empty buffer, the
writer retries the same buffer exactly once as delimited text at the
path stem with ".csv" substituted (the result is exactly that one CSV
attempt); a succeeding fallback reports success and leaves the CSV
table at the fallback path, a failing fallback reports failure without
raising (the writer is a total function returning a flag). -/
theorem C5_excel_fallback (env : WEnv) (fs : FS) (lp op : String)
    (d : OutputRecord) (ds : List OutputRecord)
    (hext : endsWithB op ".xlsx" = true)
    (hfail : env.excelOk op = false) :
    (write_data_to_file env fs lp ".xlsx" op true (d :: ds)
        = write_data_to_file_csv env (backupStep env fs op) lp ".csv"
            (dropRightB op 5 ++ ".csv") (d :: ds))
    ∧ (env.csvOk (dropRightB op 5 ++ ".csv") = true →
        (write_data_to_file env fs lp ".xlsx" op true (d :: ds)).1 = true
        ∧ ((write_data_to_file env fs lp ".xlsx" op true (d :: ds)).2).lookupFile
            (dropRightB op 5 ++ ".csv") = some (.table false (d :: ds)))
    ∧ (env.csvOk (dropRightB op 5 ++ ".csv") = false →
        (write_data_to_file env fs lp ".xlsx" op true (d :: ds)).1 = false) := by
  have hadj : adjustPath fs lp ".xlsx" op = op := by
    unfold adjustPath
    rw [if_pos hext]
  have hfbadj : adjustPath (backupStep env fs op) lp ".csv" (dropRightB op 5 ++ ".csv")
      = dropRightB op 5 ++ ".csv" := by
    unfold adjustPath
    rw [if_pos (endsWithB_append_self _ _)]
  have hstep : write_data_to_file env fs lp ".xlsx" op true (d :: ds)
      = write_data_to_file_csv env (backupStep env fs op) lp ".csv"
          (dropRightB op 5 ++ ".csv") (d :: ds) := by
    simp only [write_data_to_file, hadj, hfail, Bool.false_eq_true, if_false]
  refine ⟨hstep, ?_, ?_⟩
  · intro hok
    rw [hstep]
    simp only [write_data_to_file_csv, hfbadj, hok, if_true]
    exact ⟨by trivial, lookupFile_writeFile_self _ _ _⟩
  · intro hko
    rw [hstep]
    simp only [write_data_to_file_csv, hfbadj, hko, Bool.false_eq_true, if_false]

/-- C5 witness: a concrete failing Excel write falling back to CSV. -/
theorem C5_excel_fallback_witness :
    (write_data_to_file ⟨1700000002, fun _ => false, fun _ => true⟩ ⟨[], []⟩
        "/logs" ".xlsx" "/out.xlsx" true
        [⟨"d", .pyNone, .pyNone, .pyNone, .pyNone, none, none, none, none⟩]).1 = true :=
  ((C5_excel_fallback ⟨1700000002, fun _ => false, fun _ => true⟩ ⟨[], []⟩ "/logs" "/out.xlsx"
    ⟨"d", .pyNone, .pyNone, .pyNone, .pyNone, none, none, none, none⟩ []
    (by decide) (by rfl)).2.1 (by rfl)).1

/-- C1 (counterexample): the derived DateTime is not a sentinel when
the timestamp is absent — the absent timestamp defaults to epoch 0 and
formats as "1970-01-01 00:00:00" (at UTC offset 0), not "Unknown"; and
deriving DateTime does raise for a JSON-decodable line whose timestamp
is a string (`time.localtime` raises `TypeError`, so the line is
consumed by the error handler instead of producing a record). -/
theorem C1_dateTime_cex :
    (processLine 0 0 [] (.pyStr "Unknown Board") false "a.log" (some (.pyDict []))).map
        (fun r => r.dateTime) = .ok "1970-01-01 00:00:00"
    ∧ ("1970-01-01 00:00:00" : String) ≠ "Unknown"
    ∧ processLine 0 0 [] (.pyStr "Unknown Board") false "a.log"
        (some (.pyDict [("timestamp", .pyStr "tomorrow")])) = .error "TypeError" :=
  ⟨by rfl, by decide, by rfl⟩

/-- C1 (amended): for every JSON object line, DateTime is always the
local-time formatting of `entry.get("timestamp", 0)` — a missing or
zero timestamp formats the epoch instead of producing a sentinel — and
a line whose timestamp is neither numeric nor null makes the
derivation raise `TypeError` (caught by the per-line handler, so the
line is skipped as an error).  The hashability premise reflects that
the component lookup on line 180 runs before the DateTime derivation. -/
theorem C1_dateTime_amended (tz now : Int) (mapping : List (PyVal × PyVal)) (board : PyVal)
    (merged : Bool) (bname : String) (kvs : List (String × PyVal)) :
    (∀ ts, tsSeconds now (dictGet kvs "timestamp" (.pyInt 0)) = some ts →
        hashableAtom (dictGet kvs "i2c_address" (.pyStr "Unknown")) = true →
        ∃ r, processLine tz now mapping board merged bname (some (.pyDict kvs)) = .ok r
          ∧ r.dateTime = strftimeLocal tz ts)
    ∧ (tsSeconds now (dictGet kvs "timestamp" (.pyInt 0)) = none →
        processLine tz now mapping board merged bname (some (.pyDict kvs))
          = .error "TypeError") := by
  constructor
  · intro ts hts hhash
    simp only [processLine, hhash, if_true, hts]
    exact ⟨_, rfl, rfl⟩
  · intro hts
    cases hh : hashableAtom (dictGet kvs "i2c_address" (.pyStr "Unknown")) with
    | false => simp [processLine, hh]
    | true => simp [processLine, hh, hts]

/-- C1 witness: a concrete line with a numeric timestamp. -/
theorem C1_dateTime_amended_witness :
    ∃ r, processLine 0 0 [] (.pyStr "Unknown Board") false "a.log"
        (some (.pyDict [("timestamp", .pyInt 1700000000)])) = .ok r
      ∧ r.dateTime = strftimeLocal 0 1700000000 :=
  (C1_dateTime_amended 0 0 [] (.pyStr "Unknown Board") false "a.log"
    [("timestamp", .pyInt 1700000000)]).1 1700000000 (by rfl) (by rfl)

/-- C7: in every record the per-line block produces, the Component and
Component-at-Address fields are both present exactly when the
`i2c_address` resolves in the lookup to a value other than the
"Unknown" sentinel, in which case Component is the resolved name and
Component-at-Address is the name and the address joined by "@"; when
the address does not resolve (or resolves to "Unknown") both fields
are absent. -/
theorem C7_component_fields (tz now : Int) (mapping : List (PyVal × PyVal)) (board : PyVal)
    (merged : Bool) (bname : String) (kvs : List (String × PyVal)) (r : OutputRecord)
    (hok : processLine tz now mapping board merged bname (some (.pyDict kvs)) = .ok r) :
    (pyEqStr (lookupGet mapping (dictGet kvs "i2c_address" (.pyStr "Unknown"))
        (.pyStr "Unknown")) "Unknown" = false →
      r.component = some (lookupGet mapping (dictGet kvs "i2c_address" (.pyStr "Unknown"))
          (.pyStr "Unknown"))
      ∧ r.componentAtAddress = some
          (pyToStr (lookupGet mapping (dictGet kvs "i2c_address" (.pyStr "Unknown"))
              (.pyStr "Unknown"))
            ++ "@" ++ pyToStr (dictGet kvs "i2c_address" (.pyStr "Unknown"))))
    ∧ (pyEqStr (lookupGet mapping (dictGet kvs "i2c_address" (.pyStr "Unknown"))
        (.pyStr "Unknown")) "Unknown" = true →
      r.component = none ∧ r.componentAtAddress = none) := by
  simp only [processLine] at hok
  cases hh : hashableAtom (dictGet kvs "i2c_address" (.pyStr "Unknown")) with
  | false => rw [hh] at hok; simp at hok
  | true =>
    rw [hh] at hok
    simp only [if_true] at hok
    cases hts : tsSeconds now (dictGet kvs "timestamp" (.pyInt 0)) with
    | none => rw [hts] at hok; simp at hok
    | some ts =>
      rw [hts] at hok
      simp only [Except.ok.injEq] at hok
      subst hok
      cases hcmp : pyEqStr (lookupGet mapping (dictGet kvs "i2c_address" (.pyStr "Unknown"))
          (.pyStr "Unknown")) "Unknown" <;>
        simp [hcmp]

/-- C7 witness: a concrete line whose address 24 resolves to BME280. -/
theorem C7_component_fields_witness :
    ∃ r, processLine 0 0 [(.pyInt 24, .pyStr "BME280")] (.pyStr "Unknown Board") false "a.log"
        (some (.pyDict [("i2c_address", .pyInt 24)])) = .ok r
      ∧ r.component = some (.pyStr "BME280")
      ∧ r.componentAtAddress = some "BME280@24" := by
  cases hok : processLine 0 0 [(.pyInt 24, .pyStr "BME280")] (.pyStr "Unknown Board") false
      "a.log" (some (.pyDict [("i2c_address", .pyInt 24)])) with
  | error e =>
    have hisok : (processLine 0 0 [(.pyInt 24, .pyStr "BME280")] (.pyStr "Unknown Board") false
        "a.log" (some (.pyDict [("i2c_address", .pyInt 24)]))).isOk = true := by rfl
    rw [hok] at hisok
    simp [Except.isOk, Except.toBool] at hisok
  | ok r =>
    have h := (C7_component_fields 0 0 [(.pyInt 24, .pyStr "BME280")] (.pyStr "Unknown Board")
      false "a.log" [("i2c_address", .pyInt 24)] r hok).1 (by rfl)
    exact ⟨r, rfl, h.1, h.2.trans (by rfl)⟩

/-- C10: a discovered log file that exists but has zero lines leaves
the loop counter `i` unassigned, so the completion message of source
line 204 raises an uncaught `NameError` and the whole run aborts
(here: the very first processed file is empty, so `i` was never bound
by any earlier file either). -/
theorem C10_empty_file_aborts (env : WEnv) (cfg : RunCfg) (fs0 : FS) (name : String) :
    jsonlRun env cfg fs0 [⟨name, some []⟩] = .error "NameError: name i is not defined" := by
  simp only [jsonlRun, runFiles, stepFile, processLinesAux]
  rfl

/-- C6 (counterexample): a per-file run over one file whose single line
is malformed flushes an empty buffer; the flush is skipped ("no data")
but the writer returns failure, so the run records a second error
entry — "Failed to write outputfile ..." — for the empty buffer, i.e.
the empty-buffer case IS recorded in the run's error list. -/
theorem C6_empty_buffer_cex :
    (jsonlRun ⟨1700000003, fun _ => true, fun _ => true⟩
        ⟨0, 0, [], .pyStr "Unknown Board", false, true, "/logs", "/out.xlsx"⟩
        ⟨[], []⟩ [⟨"a.log", some [none]⟩]).map (fun st => st.errors)
      = .ok ["Error processing line 1 of a.log: JSONDecodeError",
             "Failed to write outputfile /out.xlsx(.xlsx) from a.log [data len: 0]"] := by
  rfl

/-- C6 (amended): a flush with zero records is skipped (the filesystem
is untouched) and reported as "no data" through a failure return value;
because the caller treats every failure return as a write failure, the
run then does record a "Failed to write outputfile" entry in its error
list (shown here for a per-file run over one file whose only line is
malformed, so its buffer is empty at flush time). -/
theorem C6_empty_buffer_amended (env : WEnv) (fs : FS) (lp ext op : String) (em : Bool)
    (env2 : WEnv) (cfg : RunCfg) (fs0 : FS) (name : String) (hm : cfg.merged = false) :
    write_data_to_file env fs lp ext op em [] = (false, fs)
    ∧ ∃ st, jsonlRun env2 cfg fs0 [⟨name, some [none]⟩] = .ok st
        ∧ st.errors = [mkLineErr 0 name "JSONDecodeError",
                       mkWriteErr cfg.outputPath cfg.ext name 0] := by
  refine ⟨by cases em <;> rfl, ?_⟩
  simp only [jsonlRun, runFiles, stepFile, processLinesAux, processLine, hm,
    Bool.false_eq_true, if_false, List.isEmpty, write_data_to_file]
  exact ⟨_, rfl, rfl⟩

/-- C6 witness for the amended statement, at a concrete run. -/
theorem C6_empty_buffer_amended_witness :
    write_data_to_file ⟨1700000004, fun _ => true, fun _ => true⟩ ⟨[], []⟩
        "/logs" ".xlsx" "/out.xlsx" true [] = (false, ⟨[], []⟩)
    ∧ ∃ st, jsonlRun ⟨1700000004, fun _ => true, fun _ => true⟩
        ⟨0, 0, [], .pyStr "Unknown Board", false, false, "/logs", "/out.csv"⟩
        ⟨[], []⟩ [⟨"b.log", some [none]⟩] = .ok st
      ∧ st.errors = [mkLineErr 0 "b.log" "JSONDecodeError",
                     mkWriteErr "/out.csv" ".csv" "b.log" 0] :=
  C6_empty_buffer_amended ⟨1700000004, fun _ => true, fun _ => true⟩ ⟨[], []⟩
    "/logs" ".xlsx" "/out.xlsx" true ⟨1700000004, fun _ => true, fun _ => true⟩
    ⟨0, 0, [], .pyStr "Unknown Board", false, false, "/logs", "/out.csv"⟩
    ⟨[], []⟩ "b.log" (by rfl)

/-- C3: a line that fails JSON decoding is skipped — the per-line loop
over `pre ++ [malformed] ++ post` produces exactly the records of `pre`
followed by the records of `post` (no record for the malformed line),
and exactly the errors of `pre`, then one error entry for the malformed
line, then the errors of `post`, each at its original line number; and
a run over a file containing such a line always completes (returns a
final state, never an abort). -/
theorem C3_malformed_line_isolated (tz now : Int) (mapping : List (PyVal × PyVal))
    (board : PyVal) (merged : Bool) (bname path : String) (idx : Nat)
    (pre post : List (Option PyVal)) (env : WEnv) (cfg : RunCfg) (fs0 : FS) (name : String) :
    processLinesAux tz now mapping board merged bname path idx (pre ++ none :: post)
      = ((processLinesAux tz now mapping board merged bname path idx pre).1
            ++ (processLinesAux tz now mapping board merged bname path
                  (idx + pre.length + 1) post).1,
         (processLinesAux tz now mapping board merged bname path idx pre).2
            ++ mkLineErr (idx + pre.length) path "JSONDecodeError"
              :: (processLinesAux tz now mapping board merged bname path
                  (idx + pre.length + 1) post).2)
    ∧ ∃ st, jsonlRun env cfg fs0 [⟨name, some (pre ++ none :: post)⟩] = .ok st := by
  constructor
  · induction pre generalizing idx with
    | nil => simp [processLinesAux, processLine]
    | cons a as ih =>
      simp only [List.cons_append, processLinesAux, List.append_eq]
      rw [ih (idx + 1)]
      have harith : idx + 1 + as.length = idx + (as.length + 1) := by omega
      cases hpl : processLine tz now mapping board merged bname a <;>
        simp [hpl, List.length_cons, harith]
  · have hne : (pre ++ none :: post).isEmpty = false := by cases pre <;> rfl
    obtain ⟨st1, hst1, hlog⟩ : ∃ st1,
        stepFile env cfg ⟨fs0, [], [], none, none⟩ ⟨name, some (pre ++ none :: post)⟩ = .ok st1
        ∧ st1.lastLogFile = some name := by
      simp only [stepFile, hne, Bool.false_eq_true, if_false]
      cases hm : cfg.merged with
      | true => exact ⟨_, rfl, rfl⟩
      | false => exact ⟨_, rfl, rfl⟩
    simp only [jsonlRun, runFiles, hst1]
    cases hm : cfg.merged with
    | false => exact ⟨st1, by simp [hm]⟩
    | true =>
      cases hw : (write_data_to_file env st1.fs cfg.logPath cfg.ext cfg.outputPath
          cfg.excelMode st1.data).1 with
      | true => exact ⟨_, by simp only [hm, if_true, hw]; rfl⟩
      | false =>
        exact ⟨_, by simp only [hm, if_true, hw, Bool.false_eq_true, if_false, hlog]; rfl⟩

/-- Per line, merged mode differs from per-file mode only in setting
the Filename field (source lines 194-195 are the only merged-dependent
lines of the per-line block). -/
theorem processLine_merged_eq (tz now : Int) (mapping : List (PyVal × PyVal)) (board : PyVal)
    (bname : String) (l : Option PyVal) :
    processLine tz now mapping board true bname l
      = (processLine tz now mapping board false bname l).map
          (fun r => { r with filename := some bname }) := by
  cases l with
  | none => rfl
  | some v =>
    cases v with
    | pyDict kvs =>
      simp only [processLine]
      cases hh : hashableAtom (dictGet kvs "i2c_address" (.pyStr "Unknown")) with
      | false => rfl
      | true =>
        cases hts : tsSeconds now (dictGet kvs "timestamp" (.pyInt 0)) with
        | none => rfl
        | some ts => rfl
    | pyNone => rfl
    | pyBool b => rfl
    | pyInt n => rfl
    | pyStr s => rfl
    | pyList xs => rfl

/-- Over a whole file, the merged-mode records are the per-file-mode
records with the Filename field set. -/
theorem processLinesAux_merged_fst (tz now : Int) (mapping : List (PyVal × PyVal))
    (board : PyVal) (bname path : String) (idx : Nat) (ls : List (Option PyVal)) :
    (processLinesAux tz now mapping board true bname path idx ls).1
      = ((processLinesAux tz now mapping board false bname path idx ls).1).map
          (fun r => { r with filename := some bname }) := by
  induction ls generalizing idx with
  | nil => rfl
  | cons l ls ih =>
    simp only [processLinesAux]
    rw [processLine_merged_eq]
    cases hpl : processLine tz now mapping board false bname l with
    | ok r => simp [Except.map, ih]
    | error e => simp [Except.map, ih]

/-- A per-file-mode record carries no Filename field. -/
theorem processLine_false_filename (tz now : Int) (mapping : List (PyVal × PyVal))
    (board : PyVal) (bname : String) (l : Option PyVal) (r : OutputRecord)
    (h : processLine tz now mapping board false bname l = .ok r) : r.filename = none := by
  cases l with
  | none => exact absurd h (by simp [processLine])
  | some v =>
    cases v with
    | pyDict kvs =>
      simp only [processLine] at h
      cases hh : hashableAtom (dictGet kvs "i2c_address" (.pyStr "Unknown")) with
      | false => rw [hh] at h; simp at h
      | true =>
        rw [hh] at h
        simp only [if_true] at h
        cases hts : tsSeconds now (dictGet kvs "timestamp" (.pyInt 0)) with
        | none => rw [hts] at h; simp at h
        | some ts =>
          rw [hts] at h
          simp only [Except.ok.injEq] at h
          subst h
          rfl
    | pyNone => exact absurd h (by simp [processLine])
    | pyBool b => exact absurd h (by simp [processLine])
    | pyInt n => exact absurd h (by simp [processLine])
    | pyStr s => exact absurd h (by simp [processLine])
    | pyList xs => exact absurd h (by simp [processLine])

/-- Every record of a per-file-mode line scan has no Filename field. -/
theorem processLinesAux_false_filename (tz now : Int) (mapping : List (PyVal × PyVal))
    (board : PyVal) (bname path : String) (idx : Nat) (ls : List (Option PyVal))
    (r : OutputRecord)
    (hr : r ∈ (processLinesAux tz now mapping board false bname path idx ls).1) :
    r.filename = none := by
  induction ls generalizing idx with
  | nil => simp [processLinesAux] at hr
  | cons l ls ih =>
    simp only [processLinesAux] at hr
    cases hpl : processLine tz now mapping board false bname l with
    | ok r2 =>
      rw [hpl] at hr
      simp only [List.mem_cons] at hr
      cases hr with
      | inl h => exact h ▸ processLine_false_filename tz now mapping board bname l r2 hpl
      | inr h => exact ih _ h
    | error e =>
      rw [hpl] at hr
      exact ih _ hr

/-- Removing the Filename field undoes setting it. -/
theorem stripFilename_set (r : OutputRecord) (bname : String) :
    stripFilename { r with filename := some bname } = stripFilename r := rfl

/-- Removing an absent Filename field is the identity. -/
theorem stripFilename_of_none (r : OutputRecord) (h : r.filename = none) :
    stripFilename r = r := by
  cases r
  simp only [stripFilename]
  simp at h
  rw [h]

/-- Stripping Filename turns one file's merged-mode records into its
per-file-mode records. -/
theorem fileRecords_strip (tz now : Int) (mapping : List (PyVal × PyVal)) (board : PyVal)
    (f : LogFile) :
    (fileRecords tz now mapping board true f).map stripFilename
      = fileRecords tz now mapping board false f := by
  cases hl : f.lines with
  | none => simp [fileRecords, hl]
  | some ls =>
    simp only [fileRecords, hl]
    rw [processLinesAux_merged_fst]
    rw [List.map_map]
    conv_rhs => rw [← List.map_id
      ((processLinesAux tz now mapping board false (basenameB f.path) f.path 0 ls).1)]
    apply List.map_congr_left
    intro r hr
    have hn := processLinesAux_false_filename tz now mapping board (basenameB f.path) f.path
      0 ls r hr
    show stripFilename { r with filename := some (basenameB f.path) } = r
    rw [stripFilename_set]
    exact stripFilename_of_none r hn

/-- In a merged run the global buffer accumulates, in order, the
records of every processed file. -/
theorem runFiles_merged_data (env : WEnv) (cfg : RunCfg) (hm : cfg.merged = true) :
    ∀ (files : List LogFile) (st st2 : RunState),
      runFiles env cfg st files = .ok st2 →
      st2.data = st.data
        ++ files.flatMap (fileRecords cfg.tz cfg.now cfg.mapping cfg.board true) := by
  intro files
  induction files with
  | nil =>
    intro st st2 h
    simp only [runFiles, Except.ok.injEq] at h
    subst h
    simp
  | cons lf rest ih =>
    intro st st2 h
    simp only [runFiles] at h
    cases hs : stepFile env cfg st lf with
    | error e => rw [hs] at h; cases h
    | ok st1 =>
      rw [hs] at h
      have hd := ih st1 st2 h
      have hstep : st1.data
          = st.data ++ fileRecords cfg.tz cfg.now cfg.mapping cfg.board true lf := by
        simp only [stepFile, hm, if_true] at hs
        cases hl : lf.lines with
        | none =>
          rw [hl] at hs
          simp only [Except.ok.injEq] at hs
          subst hs
          simp [fileRecords, hl]
        | some lines =>
          rw [hl] at hs
          simp only [] at hs
          split at hs
          · cases hs
          · simp only [Except.ok.injEq] at hs
            subst hs
            simp [fileRecords, hl, hm]
      rw [hd, hstep]
      simp [List.flatMap_cons, List.append_assoc]

/-- A completed merged run's final state holds the whole-run buffer. -/
theorem jsonlRun_merged_data (env : WEnv) (cfg : RunCfg) (fs0 : FS) (files : List LogFile)
    (st : RunState) (hm : cfg.merged = true)
    (hrun : jsonlRun env cfg fs0 files = .ok st) :
    st.data = files.flatMap (fileRecords cfg.tz cfg.now cfg.mapping cfg.board true) := by
  unfold jsonlRun at hrun
  cases hrf : runFiles env cfg ⟨fs0, [], [], none, none⟩ files with
  | error e => rw [hrf] at hrun; cases hrun
  | ok st1 =>
    rw [hrf] at hrun
    have h1 := runFiles_merged_data env cfg hm files _ _ hrf
    simp only [hm, if_true] at hrun
    cases hw : (write_data_to_file env st1.fs cfg.logPath cfg.ext cfg.outputPath
        cfg.excelMode st1.data).1 with
    | true =>
      rw [hw] at hrun
      simp only [if_true, Except.ok.injEq] at hrun
      subst hrun
      simpa using h1
    | false =>
      rw [hw] at hrun
      simp only [Bool.false_eq_true, if_false] at hrun
      cases hlo : st1.lastLogFile with
      | none => rw [hlo] at hrun; cases hrun
      | some lf =>
        rw [hlo] at hrun
        simp only [Except.ok.injEq] at hrun
        subst hrun
        simpa using h1

/-- A completed per-file run over a single file leaves exactly that
file's per-file-mode records in the flushed buffer. -/
theorem jsonlRun_perfile_data (env : WEnv) (cfg : RunCfg) (fs0 : FS) (f : LogFile)
    (st : RunState) (hm : cfg.merged = false)
    (hrun : jsonlRun env cfg fs0 [f] = .ok st) :
    st.data = fileRecords cfg.tz cfg.now cfg.mapping cfg.board false f := by
  unfold jsonlRun at hrun
  cases hs : stepFile env cfg ⟨fs0, [], [], none, none⟩ f with
  | error e =>
    rw [show runFiles env cfg ⟨fs0, [], [], none, none⟩ [f]
        = .error e by simp [runFiles, hs]] at hrun
    cases hrun
  | ok st1 =>
    rw [show runFiles env cfg ⟨fs0, [], [], none, none⟩ [f]
        = .ok st1 by simp [runFiles, hs]] at hrun
    simp only [hm, Bool.false_eq_true, if_false, Except.ok.injEq] at hrun
    subst hrun
    simp only [stepFile, hm, Bool.false_eq_true, if_false] at hs
    cases hl : f.lines with
    | none =>
      rw [hl] at hs
      simp only [Except.ok.injEq] at hs
      subst hs
      simp [fileRecords, hl]
    | some lines =>
      rw [hl] at hs
      simp only [] at hs
      split at hs
      · cases hs
      · simp only [Except.ok.injEq] at hs
        subst hs
        simp [fileRecords, hl, hm]

/-- Stripping Filename over a whole run's worth of files. -/
theorem flatMap_fileRecords_strip (tz now : Int) (mapping : List (PyVal × PyVal))
    (board : PyVal) (files : List LogFile) :
    (files.flatMap (fileRecords tz now mapping board true)).map stripFilename
      = files.flatMap (fileRecords tz now mapping board false) := by
  induction files with
  | nil => rfl
  | cons f fs ihf =>
    simp only [List.flatMap_cons, List.map_append, fileRecords_strip, ihf]

/-- C2: a completed merged-mode run's buffer is the concatenation of
every file's merged-mode records; after removing the Filename field it
equals the concatenation of the per-file-mode records, which is what a
completed per-file-mode run (same timezone, clock, ComponentLookup and
BoardIdentifier) flushes for each single file; Filename is present in
every merged-mode record and absent from every per-file-mode record. -/
theorem C2_merged_vs_perfile (env : WEnv) (cfg cfg2 : RunCfg) (fs0 : FS)
    (files : List LogFile) (st : RunState)
    (hm : cfg.merged = true) (hrun : jsonlRun env cfg fs0 files = .ok st)
    (h2tz : cfg2.tz = cfg.tz) (h2now : cfg2.now = cfg.now)
    (h2map : cfg2.mapping = cfg.mapping) (h2board : cfg2.board = cfg.board)
    (h2m : cfg2.merged = false) :
    st.data = files.flatMap (fileRecords cfg.tz cfg.now cfg.mapping cfg.board true)
    ∧ (files.flatMap (fileRecords cfg.tz cfg.now cfg.mapping cfg.board true)).map stripFilename
        = files.flatMap (fileRecords cfg.tz cfg.now cfg.mapping cfg.board false)
    ∧ (∀ (env2 : WEnv) (fs2 : FS) (f : LogFile) (st2 : RunState),
        jsonlRun env2 cfg2 fs2 [f] = .ok st2 →
        st2.data = fileRecords cfg.tz cfg.now cfg.mapping cfg.board false f)
    ∧ (∀ (f : LogFile) (r : OutputRecord),
        r ∈ fileRecords cfg.tz cfg.now cfg.mapping cfg.board true f →
        r.filename = some (basenameB f.path))
    ∧ (∀ (f : LogFile) (r : OutputRecord),
        r ∈ fileRecords cfg.tz cfg.now cfg.mapping cfg.board false f →
        r.filename = none) := by
  refine ⟨jsonlRun_merged_data env cfg fs0 files st hm hrun,
    flatMap_fileRecords_strip _ _ _ _ _, ?_, ?_, ?_⟩
  · intro env2 fs2 f st2 h2
    have hdat := jsonlRun_perfile_data env2 cfg2 fs2 f st2 h2m h2
    rw [hdat, h2tz, h2now, h2map, h2board]
  · intro f r hr
    cases hl : f.lines with
    | none => simp [fileRecords, hl] at hr
    | some ls =>
      simp only [fileRecords, hl] at hr
      rw [processLinesAux_merged_fst] at hr
      obtain ⟨r2, hr2, hset⟩ := List.mem_map.mp hr
      rw [← hset]
  · intro f r hr
    cases hl : f.lines with
    | none => simp [fileRecords, hl] at hr
    | some ls =>
      simp only [fileRecords, hl] at hr
      exact processLinesAux_false_filename _ _ _ _ _ _ _ _ _ hr

/-- C2 witness: a concrete merged run over two files, one good line
and one malformed line. -/
theorem C2_merged_vs_perfile_witness :
    ∃ st, jsonlRun ⟨1700000005, fun _ => true, fun _ => true⟩
        ⟨0, 0, [], .pyStr "Unknown Board", true, true, "/logs", "/out.xlsx"⟩ ⟨[], []⟩
        [⟨"a.log", some [some (.pyDict [("timestamp", .pyInt 1700000000)])]⟩,
         ⟨"b.log", some [none]⟩] = .ok st
      ∧ st.data = ([⟨"a.log", some [some (.pyDict [("timestamp", .pyInt 1700000000)])]⟩,
          ⟨"b.log", some [none]⟩] : List LogFile).flatMap
            (fileRecords 0 0 [] (.pyStr "Unknown Board") true) := by
  cases hrun : jsonlRun ⟨1700000005, fun _ => true, fun _ => true⟩
      ⟨0, 0, [], .pyStr "Unknown Board", true, true, "/logs", "/out.xlsx"⟩ ⟨[], []⟩
      [⟨"a.log", some [some (.pyDict [("timestamp", .pyInt 1700000000)])]⟩,
       ⟨"b.log", some [none]⟩] with
  | error e =>
    have hisok : (jsonlRun ⟨1700000005, fun _ => true, fun _ => true⟩
        ⟨0, 0, [], .pyStr "Unknown Board", true, true, "/logs", "/out.xlsx"⟩ ⟨[], []⟩
        [⟨"a.log", some [some (.pyDict [("timestamp", .pyInt 1700000000)])]⟩,
         ⟨"b.log", some [none]⟩]).isOk = true := by rfl
    rw [hrun] at hisok
    simp [Except.isOk, Except.toBool] at hisok
  | ok st =>
    exact ⟨st, rfl, (C2_merged_vs_perfile ⟨1700000005, fun _ => true, fun _ => true⟩
      ⟨0, 0, [], .pyStr "Unknown Board", true, true, "/logs", "/out.xlsx"⟩
      ⟨0, 0, [], .pyStr "Unknown Board", false, true, "/logs", "/out2.xlsx"⟩ ⟨[], []⟩
      [⟨"a.log", some [some (.pyDict [("timestamp", .pyInt 1700000000)])]⟩,
       ⟨"b.log", some [none]⟩] st rfl hrun rfl rfl rfl rfl rfl).1⟩

/-- The boot-log scan returns the extract of the first marker line. -/
theorem scanBoardLines_append_marker (fb : PyVal) (pre : List String) (l : String)
    (rest : List String) (hpre : ∀ x ∈ pre, hasBoardMarker x = false)
    (hl : hasBoardMarker l = true) :
    scanBoardLines fb (pre ++ l :: rest) = .pyStr (extractBoardId l) := by
  induction pre with
  | nil => simp [scanBoardLines, hl]
  | cons a as ih =>
    have ha : hasBoardMarker a = false := hpre a (by simp)
    simp only [List.cons_append, scanBoardLines, ha, Bool.false_eq_true, if_false]
    exact ih (fun x hx => hpre x (by simp [hx]))

/-- With no marker line the boot-log scan keeps the fallback. -/
theorem scanBoardLines_no_marker (fb : PyVal) (ls : List String)
    (h : ∀ x ∈ ls, hasBoardMarker x = false) : scanBoardLines fb ls = fb := by
  induction ls with
  | nil => rfl
  | cons a as ih =>
    have ha : hasBoardMarker a = false := h a (by simp)
    simp only [scanBoardLines, ha, Bool.false_eq_true, if_false]
    exact ih (fun x hx => h x (by simp [hx]))

/-- C8: board-identifier resolution follows the three-tier priority:
if the boot log exists and has a line containing "Board ID:", the
identifier is the trimmed text after that line's last colon (first such
line wins); otherwise it is the configuration's nested
exportedFromDevice rtc entry when present, the literal "Unknown Board"
when absent (both cases are the `dictGet` with the "Unknown Board"
default in the second conjunct).  The hypothesis `hd` states that the
exportedFromDevice entry is a dictionary (or absent, in which case it
defaults to the empty dictionary), as the source's chained `.get`
requires. -/
theorem C8_board_resolution (config : List (String × PyVal)) (boot : Option (List String))
    (d : List (String × PyVal))
    (hd : dictGet config "exportedFromDevice" (.pyDict []) = .pyDict d) :
    (∀ (pre : List String) (l : String) (rest : List String),
        boot = some (pre ++ l :: rest) → (∀ x ∈ pre, hasBoardMarker x = false) →
        hasBoardMarker l = true →
        resolveBoardType config boot = .ok (.pyStr (extractBoardId l)))
    ∧ ((∀ ls, boot = some ls → ∀ x ∈ ls, hasBoardMarker x = false) →
        resolveBoardType config boot = .ok (dictGet d "rtc" (.pyStr "Unknown Board"))) := by
  have hfb : configBoardFallback config = .ok (dictGet d "rtc" (.pyStr "Unknown Board")) := by
    simp [configBoardFallback, hd]
  constructor
  · intro pre l rest hb hpre hl
    subst hb
    simp only [resolveBoardType, hfb]
    rw [scanBoardLines_append_marker _ pre l rest hpre hl]
  · intro hnone
    cases boot with
    | none => simp [resolveBoardType, hfb]
    | some ls =>
      simp only [resolveBoardType, hfb]
      rw [scanBoardLines_no_marker _ ls (hnone ls rfl)]

/-- C8 witness: a boot log whose second line carries the marker, with
an rtc fallback present in the configuration. -/
theorem C8_board_resolution_witness :
    resolveBoardType [("exportedFromDevice", .pyDict [("rtc", .pyStr "DS3231")])]
        (some ["Adafruit WipperSnapper", "Board ID: feather:esp32s2"])
      = .ok (.pyStr (extractBoardId "Board ID: feather:esp32s2"))
    ∧ resolveBoardType [("exportedFromDevice", .pyDict [("rtc", .pyStr "DS3231")])]
        (some ["no marker here"])
      = .ok (.pyStr "DS3231") :=
  ⟨(C8_board_resolution [("exportedFromDevice", .pyDict [("rtc", .pyStr "DS3231")])]
      (some ["Adafruit WipperSnapper", "Board ID: feather:esp32s2"])
      [("rtc", .pyStr "DS3231")] (by rfl)).1
      ["Adafruit WipperSnapper"] "Board ID: feather:esp32s2" [] rfl (by decide) (by decide),
   (C8_board_resolution [("exportedFromDevice", .pyDict [("rtc", .pyStr "DS3231")])]
      (some ["no marker here"])
      [("rtc", .pyStr "DS3231")] (by rfl)).2
      (by intro ls hls; cases hls; decide)⟩

/-- Filtering at collection time equals collecting all files and
filtering afterwards, at one directory level. -/
theorem levelFilter_eq (base : String) (ts : List FsTree) :
    (ts.filterMap fun c => match c with
      | FsTree.file n => if isLogName n then some (joinPath base n) else none
      | FsTree.dir _ _ => none)
    = ((ts.filterMap fun c => match c with
        | FsTree.file n => some (joinPath base n, n)
        | FsTree.dir _ _ => none).filter (fun e => isLogName e.2)).map Prod.fst := by
  induction ts with
  | nil => rfl
  | cons c cs ih =>
    cases c with
    | file n =>
      cases hn : isLogName n with
      | true => simp [List.filterMap_cons, hn, ih, List.filter_cons]
      | false => simp [List.filterMap_cons, hn, ih, List.filter_cons]
    | dir m ds => simp [List.filterMap_cons, ih]

/-- The filtered walk equals the unfiltered walk followed by the
extension filter on entry names, for both walk functions. -/
theorem walk_eq_collect_filter :
    (∀ (base : String) (ts : List FsTree),
      walkSubdirs base ts
        = ((collectSubdirs base ts).filter (fun e => isLogName e.2)).map Prod.fst)
    ∧ (∀ (base : String) (ts : List FsTree),
      walkLevel base ts
        = ((collectLevel base ts).filter (fun e => isLogName e.2)).map Prod.fst) :=
  walkSubdirs.mutual_induct
    (fun base ts => walkSubdirs base ts
      = ((collectSubdirs base ts).filter (fun e => isLogName e.2)).map Prod.fst)
    (fun base ts => walkLevel base ts
      = ((collectLevel base ts).filter (fun e => isLogName e.2)).map Prod.fst)
    (fun base => by simp [walkSubdirs, collectSubdirs])
    (fun base a ts ih => by
      simp only [walkSubdirs, collectSubdirs]
      exact ih)
    (fun base n cs ts ih2 ih1 => by
      simp only [walkSubdirs, collectSubdirs, List.filter_append, List.map_append]
      rw [ih2, ih1])
    (fun base ts ih => by
      simp only [walkLevel, collectLevel, List.filter_append, List.map_append]
      rw [ih, levelFilter_eq])

/-- C9: file discovery returns the root itself (whatever its extension)
when the root is a single file; the log-extension-filtered, joined
direct children when the root is a directory and recursion is off; and
the same extension filter applied to the full top-down subtree walk
when recursion is on. -/
theorem C9_file_discovery (logPath n : String) (children : List FsTree) (recurse : Bool) :
    findLogFiles logPath (.file n) recurse = [logPath]
    ∧ findLogFiles logPath (.dir n children) false
        = ((children.map FsTree.name).filter isLogName).map (joinPath logPath)
    ∧ findLogFiles logPath (.dir n children) true
        = ((collectLevel logPath children).filter (fun e => isLogName e.2)).map Prod.fst := by
  refine ⟨rfl, rfl, ?_⟩
  simp only [findLogFiles, if_true]
  exact walk_eq_collect_filter.2 logPath children
